import Mathlib

/-!
# Verification of the asset-registry core (algorand-hackathon API)

A shallow embedding of the repository's core logic:

* `generate_asset_id` (src/utils.py): SHA-256 over a canonical JSON
  serialization of an asset upload request (description excluded).
* `AssetId` (src/models.py): validated 64-char lowercase-hex identifier.
* `InMemoryAssetStorage`, `FileSystemAssetStorage` (src/storage.py):
  the local store strategies.
* `AlgorandStorage.record_asset` and `HybridAssetStorage.save_and_link`
  (src/storage.py): best-effort ledger notarization and the hybrid
  coordinator, with the external ledger client modelled as an oracle.

Representation choices (documented once here):

* Python `float` values (GPS coordinates) are represented by their
  shortest round-trip decimal rendering (`repr`), which is exactly the
  text `json.dumps` emits for them; `repr` is injective on floats, so
  this representation is faithful for equality and hashing.
* Python `datetime` values are represented by their `isoformat()`
  string, which is injective on datetimes and is exactly the text that
  enters every serialization in the code under study.
* Machine-level integers do not occur; all arithmetic is on `Nat` with
  explicit `% 2^32` where the SHA-256 rounds require 32-bit wrap-around.
-/

/-! ## SHA-256 (hashlib.sha256, as used via .hexdigest and .digest) -/

/-- 2^32, the modulus for all 32-bit word arithmetic in SHA-256. -/
def w32 : Nat := 4294967296

/-- Addition modulo 2^32. -/
def add32 (a b : Nat) : Nat := (a + b) % w32

/-- Right-rotation of a 32-bit word by `n` places. -/
def rotr32 (n x : Nat) : Nat := ((x >>> n) ||| ((x <<< (32 - n)) % w32))

/-- Bitwise complement of a 32-bit word. -/
def not32 (x : Nat) : Nat := x ^^^ 4294967295

/-- SHA-256 Σ₀. -/
def bigSigma0 (x : Nat) : Nat := rotr32 2 x ^^^ rotr32 13 x ^^^ rotr32 22 x

/-- SHA-256 Σ₁. -/
def bigSigma1 (x : Nat) : Nat := rotr32 6 x ^^^ rotr32 11 x ^^^ rotr32 25 x

/-- SHA-256 σ₀. -/
def smallSigma0 (x : Nat) : Nat := rotr32 7 x ^^^ rotr32 18 x ^^^ (x >>> 3)

/-- SHA-256 σ₁. -/
def smallSigma1 (x : Nat) : Nat := rotr32 17 x ^^^ rotr32 19 x ^^^ (x >>> 10)

/-- SHA-256 choice function. -/
def chFun (x y z : Nat) : Nat := (x &&& y) ^^^ (not32 x &&& z)

/-- SHA-256 majority function. -/
def majFun (x y z : Nat) : Nat := (x &&& y) ^^^ (x &&& z) ^^^ (y &&& z)

/-- The 64 SHA-256 round constants of FIPS 180-4 (the fractional parts of
the cube roots of the first 64 primes), here in decimal. -/
def K256 : List Nat :=
  [1116352408, 1899447441, 3049323471, 3921009573, 961987163, 1508970993,
   2453635748, 2870763221, 3624381080, 310598401, 607225278, 1426881987,
   1925078388, 2162078206, 2614888103, 3248222580, 3835390401, 4022224774,
   264347078, 604807628, 770255983, 1249150122, 1555081692, 1996064986,
   2554220882, 2821834349, 2952996808, 3210313671, 3336571891, 3584528711,
   113926993, 338241895, 666307205, 773529912, 1294757372, 1396182291,
   1695183700, 1986661051, 2177026350, 2456956037, 2730485921, 2820302411,
   3259730800, 3345764771, 3516065817, 3600352804, 4094571909, 275423344,
   430227734, 506948616, 659060556, 883997877, 958139571, 1322822218,
   1537002063, 1747873779, 1955562222, 2024104815, 2227730452, 2361852424,
   2428436474, 2756734187, 3204031479, 3329325298]

/-- The eight 32-bit working variables of the SHA-256 state. -/
structure Digest where
  a : Nat
  b : Nat
  c : Nat
  d : Nat
  e : Nat
  f : Nat
  g : Nat
  h : Nat
deriving DecidableEq, Repr

/-- The SHA-256 initial hash value H⁽⁰⁾ of FIPS 180-4 (the fractional parts
of the square roots of the first 8 primes), here in decimal. -/
def initDigest : Digest :=
  ⟨1779033703, 3144134277, 1013904242, 2773480762,
   1359893119, 2600822924, 528734635, 1541459225⟩

/-- Group a byte list into big-endian 32-bit words. -/
def bytesToWords : List Nat → List Nat
  | b0 :: b1 :: b2 :: b3 :: rest => (((b0 * 256 + b1) * 256 + b2) * 256 + b3) :: bytesToWords rest
  | _ => []

/-- Extend the 16 message words of a block to the 64-entry schedule. -/
def extendW (ws : List Nat) : List Nat :=
  ((List.range 48).foldl
    (fun (a : Array Nat) _ =>
      a.push (add32
        (add32 (smallSigma1 (a.getD (a.size - 2) 0)) (a.getD (a.size - 7) 0))
        (add32 (smallSigma0 (a.getD (a.size - 15) 0)) (a.getD (a.size - 16) 0))))
    ws.toArray).toList

/-- One SHA-256 round, consuming a (round constant, schedule word) pair. -/
def roundStep (d : Digest) (kw : Nat × Nat) : Digest :=
  let t1 := add32 d.h (add32 (bigSigma1 d.e) (add32 (chFun d.e d.f d.g) (add32 kw.1 kw.2)))
  let t2 := add32 (bigSigma0 d.a) (majFun d.a d.b d.c)
  ⟨add32 t1 t2, d.a, d.b, d.c, add32 d.d t1, d.e, d.f, d.g⟩

/-- Process one 64-byte block into the running hash value. -/
def compressBlock (d : Digest) (block : List Nat) : Digest :=
  let ws := extendW (bytesToWords block)
  let r := (K256.zip ws).foldl roundStep d
  ⟨add32 d.a r.a, add32 d.b r.b, add32 d.c r.c, add32 d.d r.d,
   add32 d.e r.e, add32 d.f r.f, add32 d.g r.g, add32 d.h r.h⟩

/-- The message length rendered as 8 big-endian bytes of the bit count. -/
def lenBytes (bitLen : Nat) : List Nat :=
  (List.range 8).map (fun i => (bitLen >>> (56 - 8 * i)) % 256)

/-- SHA-256 padding: 0x80, zeros to 56 mod 64, then the 64-bit bit length. -/
def padMsg (msg : List Nat) : List Nat :=
  msg ++ [128] ++ List.replicate ((119 - msg.length % 64) % 64) 0 ++ lenBytes (8 * msg.length)

/-- Split a byte list into 64-byte chunks; the fuel argument is a bound on
the number of chunks, so the recursion is structural and kernel-reducible. -/
def chunks64Go : Nat → List Nat → List (List Nat)
  | 0, _ => []
  | _, [] => []
  | fuel + 1, l => l.take 64 :: chunks64Go fuel (l.drop 64)

/-- Split a byte list into 64-byte chunks. -/
def chunks64 (l : List Nat) : List (List Nat) := chunks64Go l.length l

/-- SHA-256 of a byte sequence, as the final eight-word state. -/
def sha256Digest (msg : List Nat) : Digest :=
  (chunks64 (padMsg msg)).foldl compressBlock initDigest

/-- SHA-256 of a byte sequence as raw digest bytes (hashlib .digest). -/
def sha256Bytes (msg : List Nat) : List Nat :=
  let d := sha256Digest msg
  ([d.a, d.b, d.c, d.d, d.e, d.f, d.g, d.h]).foldr
    (fun w acc => ((List.range 4).map (fun i => (w >>> (24 - 8 * i)) % 256)) ++ acc) []

/-- Lowercase hex digit for a nibble value below 16. -/
def hexChar (n : Nat) : Char := if n < 10 then Char.ofNat (48 + n) else Char.ofNat (87 + n)

/-- The eight lowercase-hex digits of a 32-bit word, most significant first. -/
def wordToHex (w : Nat) : List Char :=
  (List.range 8).map (fun i => hexChar ((w >>> (28 - 4 * i)) % 16))

/-- SHA-256 of a byte sequence as a lowercase hex string (hashlib .hexdigest). -/
def sha256Hex (msg : List Nat) : String :=
  let d := sha256Digest msg
  String.mk (wordToHex d.a ++ wordToHex d.b ++ wordToHex d.c ++ wordToHex d.d ++
    wordToHex d.e ++ wordToHex d.f ++ wordToHex d.g ++ wordToHex d.h)

/-! ## UTF-8 encoding (str.encode) -/

/-- UTF-8 encoding of a Unicode code point. -/
def utf8Encode (n : Nat) : List Nat :=
  if n < 128 then [n]
  else if n < 2048 then [192 + n / 64, 128 + n % 64]
  else if n < 65536 then [224 + n / 4096, 128 + (n / 64) % 64, 128 + n % 64]
  else [240 + n / 262144, 128 + (n / 4096) % 64, 128 + (n / 64) % 64, 128 + n % 64]

/-- UTF-8 bytes of a string (Python str.encode with default encoding). -/
def strBytes (s : String) : List Nat :=
  s.data.foldr (fun c acc => utf8Encode c.toNat ++ acc) []

/-! ## Data model (src/models.py) -/

/-- GPS coordinates. The Python fields are floats; each is represented here
by its shortest round-trip decimal rendering (see the header comment). -/
structure GPSCoordinates where
  latitude : String
  longitude : String
deriving DecidableEq, Repr

/-- An asset upload request (src/models.py `AssetUploadRequest`). The
`timestamp` field is the `isoformat()` rendering of the Python datetime. -/
structure AssetUploadRequest where
  description : String
  content : String
  location : GPSCoordinates
  timestamp : String
  creator : String
  publisher : String
deriving DecidableEq, Repr

/-- A type-safe asset identifier (src/models.py `AssetId`): a pydantic model
holding a single string field `value`. -/
structure AssetId where
  value : String
deriving DecidableEq, Repr

/-- Whether a character is one of `a-f0-9`. -/
def isHexLowerChar (c : Char) : Bool :=
  (48 ≤ c.toNat && c.toNat ≤ 57) || (97 ≤ c.toNat && c.toNat ≤ 102)

/-- The pydantic validation predicate of `AssetId.value`: min_length=64,
max_length=64 and full anchored match of `[a-f0-9]{64}`. -/
def AssetId.validValue (s : String) : Bool :=
  s.length == 64 && s.data.all isHexLowerChar

/-- `AssetId.from_string` (src/models.py): construct with validation; a
non-conforming string makes pydantic raise, modelled as `none`. -/
def AssetId.from_string (s : String) : Option AssetId :=
  if AssetId.validValue s then some ⟨s⟩ else none

/-- The persisted asset record (src/models.py `Asset`). -/
structure Asset where
  asset_id : AssetId
  description : String
  content : String
  location : GPSCoordinates
  timestamp : String
  creator : String
  publisher : String
deriving DecidableEq, Repr

/-- The listing projection (src/models.py `AssetSummary`). -/
structure AssetSummary where
  asset_id : AssetId
  description : String
deriving DecidableEq, Repr

/-! ## JSON values and json.dumps

`JsonValue` covers the JSON shapes that occur in this system: strings,
numbers (carried as the decimal text `json.dumps` emits for them, see the
header comment) and objects (key/value lists standing for Python dicts,
whose keys are distinct). Arrays, booleans and null are omitted; every
operation modelled here treats them exactly like `num` (a non-string,
non-object value). -/
mutual

inductive JsonValue where
  | str : String → JsonValue
  | num : String → JsonValue
  | obj : JsonMembers → JsonValue

/-- The key/value members of a JSON object, as a bespoke list so that all
recursion over JSON values is mutual-structural (and hence computes inside
the kernel). -/
inductive JsonMembers where
  | nil : JsonMembers
  | cons : String → JsonValue → JsonMembers → JsonMembers

end

/-- Build an object from a plain key/value list. -/
def JsonMembers.ofList : List (String × JsonValue) → JsonMembers
  | [] => .nil
  | (k, v) :: rest => .cons k v (JsonMembers.ofList rest)

/-- A JSON object literal. -/
def jobj (l : List (String × JsonValue)) : JsonValue :=
  .obj (JsonMembers.ofList l)

/-- First value stored under a key (Python dicts have distinct keys). -/
def JsonMembers.lookup : JsonMembers → String → Option JsonValue
  | .nil, _ => none
  | .cons k0 v0 rest, k => if k0 = k then some v0 else JsonMembers.lookup rest k

/-- Four lowercase hex digits of a code unit below 2^16. -/
def hex4 (n : Nat) : List Char :=
  [hexChar (n / 4096 % 16), hexChar (n / 256 % 16), hexChar (n / 16 % 16), hexChar (n % 16)]

/-- `\uXXXX` escape of a code point, with a surrogate pair above 0xFFFF
(json.dumps with its default ensure_ascii=True). -/
def uEscape (n : Nat) : List Char :=
  if n < 65536 then '\\' :: 'u' :: hex4 n
  else
    let m := n - 65536
    ('\\' :: 'u' :: hex4 (55296 + m / 1024)) ++ ('\\' :: 'u' :: hex4 (56320 + m % 1024))

/-- json.dumps escaping of one character (ensure_ascii mode): quote and
backslash get a backslash escape, the five control shorthands apply, other
characters outside printable ASCII become `\uXXXX`. -/
def escapeChar (c : Char) : List Char :=
  if c = '"' then ['\\', '"']
  else if c = '\\' then ['\\', '\\']
  else if c.toNat = 8 then ['\\', 'b']
  else if c.toNat = 9 then ['\\', 't']
  else if c.toNat = 10 then ['\\', 'n']
  else if c.toNat = 12 then ['\\', 'f']
  else if c.toNat = 13 then ['\\', 'r']
  else if 32 ≤ c.toNat && c.toNat ≤ 126 then [c]
  else uEscape c.toNat

/-- A JSON string literal: escaped content between double quotes. -/
def jsonQuote (s : String) : String :=
  "\"" ++ String.mk (s.data.foldr (fun c acc => escapeChar c ++ acc) []) ++ "\""

/-- Code-point lexicographic comparison of character lists (the order
Python's `sorted` imposes on strings). -/
def charListLe : List Char → List Char → Bool
  | [], _ => true
  | _ :: _, [] => false
  | a :: as, b :: bs => if a < b then true else if b < a then false else charListLe as bs

/-- Lexicographic string comparison, executable. -/
def strLeB (s t : String) : Bool := charListLe s.data t.data

/-- The key order `sort_keys=True` sorts by: code-point lexicographic order
on the key strings. -/
def keyLe (p q : String × String) : Prop := strLeB p.1 q.1 = true

instance : DecidableRel keyLe :=
  fun p q => inferInstanceAs (Decidable (strLeB p.1 q.1 = true))

/-- Sort rendered key/value pairs by key (Python `sort_keys=True`; dict keys
are distinct, so stability questions do not arise). -/
def sortByKey (l : List (String × String)) : List (String × String) :=
  List.insertionSort keyLe l

mutual

/-- `json.dumps` with item separator `itemSep`, key separator `kvSep`, and
`sort_keys` flag `sk`. The code uses the default separators `", "`/`": "`
with `sort_keys=True` in generate_asset_id, and the compact separators
`","`/`":"` without sorting in record_asset. -/
def dumpsWith (itemSep kvSep : String) (sk : Bool) : JsonValue → String
  | .str s => jsonQuote s
  | .num r => r
  | .obj ms =>
    let rendered := dumpsMembers itemSep kvSep sk ms
    let ordered := if sk then sortByKey rendered else rendered
    "\x7b" ++ String.intercalate itemSep
      (ordered.map (fun p => jsonQuote p.1 ++ kvSep ++ p.2)) ++ "\x7d"

/-- Render each member value of an object, keeping keys. -/
def dumpsMembers (itemSep kvSep : String) (sk : Bool) : JsonMembers → List (String × String)
  | .nil => []
  | .cons k v rest => (k, dumpsWith itemSep kvSep sk v) :: dumpsMembers itemSep kvSep sk rest

end

/-- `json.dumps(x, sort_keys=True)` with default separators. -/
def dumpsSorted : JsonValue → String := dumpsWith ", " ": " true

/-- `json.dumps(x, separators=(",", ":"))`, insertion order. -/
def dumpsCompact : JsonValue → String := dumpsWith "," ":" false

/-! ## generate_asset_id (src/utils.py) -/

/-- The `data_to_hash` dict built by generate_asset_id, in its insertion
order: content, location (latitude, longitude), timestamp, creator,
publisher — the description is deliberately absent. -/
def dataToHash (a : AssetUploadRequest) : JsonValue :=
  jobj [("content", .str a.content),
        ("location", jobj [("latitude", .num a.location.latitude),
                           ("longitude", .num a.location.longitude)]),
        ("timestamp", .str a.timestamp),
        ("creator", .str a.creator),
        ("publisher", .str a.publisher)]

/-- The exact string generate_asset_id hashes:
`json.dumps(data_to_hash, sort_keys=True)`. -/
def hashInputString (a : AssetUploadRequest) : String :=
  dumpsSorted (dataToHash a)

/-- `generate_asset_id` (src/utils.py): SHA-256 hexdigest of the canonical
serialization, wrapped through `AssetId.from_string`. -/
def generate_asset_id (a : AssetUploadRequest) : Option AssetId :=
  AssetId.from_string (sha256Hex (strBytes (hashInputString a)))

/-! ## Python dict semantics

Insertion-ordered association lists: `d[k] = v` keeps the position (and the
stored key object) of an existing equal key and appends a fresh one;
iteration follows that order. -/

/-- `d[k] = v` on an insertion-ordered dict. -/
def dictInsert {κ ν : Type} [DecidableEq κ] : List (κ × ν) → κ → ν → List (κ × ν)
  | [], k, v => [(k, v)]
  | (k0, v0) :: rest, k, v =>
    if k0 = k then (k0, v) :: rest else (k0, v0) :: dictInsert rest k v

/-- `d.get(k)` / `d[k]`-lookup on an insertion-ordered dict. -/
def dictGet {κ ν : Type} [DecidableEq κ] : List (κ × ν) → κ → Option ν
  | [], _ => none
  | (k0, v0) :: rest, k => if k0 = k then some v0 else dictGet rest k

/-! ## Python exceptions reaching the modelled code -/

/-- The Python exceptions that can cross the boundaries modelled here.
`keyError` is the only one the file-backed retrieve catches (besides
FileNotFoundError and JSONDecodeError, which are resolved before this type
is reached). -/
inductive PyErr where
  | keyError
  | typeError
  | valueError
  | validationError
  | permissionError
  | connectionError
deriving DecidableEq, Repr

/-! ## InMemoryAssetStorage (src/storage.py) -/

/-- The two dicts of `InMemoryAssetStorage.__init__`: `_storage` mapping ids
to assets and `_links` mapping ids to ledger transaction references (the
hybrid coordinator passes `None` through, hence `Option String`). -/
structure InMemoryState where
  storage : List (AssetId × Asset)
  links : List (AssetId × Option String)
deriving DecidableEq, Repr

/-- The `Asset(...)` record both save implementations construct from a
request and an identifier. -/
def assetOf (asset_id : AssetId) (x : AssetUploadRequest) : Asset :=
  ⟨asset_id, x.description, x.content, x.location, x.timestamp, x.creator, x.publisher⟩

namespace InMemoryAssetStorage

/-- A fresh store: both dicts empty. -/
def emptyState : InMemoryState := ⟨[], []⟩

/-- `InMemoryAssetStorage.save`: build the Asset and store it under the id. -/
def save (s : InMemoryState) (asset_request : AssetUploadRequest) (asset_id : AssetId) :
    InMemoryState :=
  { s with storage := dictInsert s.storage asset_id (assetOf asset_id asset_request) }

/-- `InMemoryAssetStorage.list`: one summary per stored asset, in dict
iteration (= insertion) order. -/
def list (s : InMemoryState) : List AssetSummary :=
  s.storage.map (fun p => ⟨p.2.asset_id, p.2.description⟩)

/-- `InMemoryAssetStorage.retrieve`: `self._storage.get(asset_id)`. -/
def retrieve (s : InMemoryState) (asset_id : AssetId) : Option Asset :=
  dictGet s.storage asset_id

/-- `InMemoryAssetStorage.link_transaction`: `self._links[asset_id] = txid`. -/
def link_transaction (s : InMemoryState) (asset_id : AssetId)
    (transaction_id : Option String) : InMemoryState :=
  { s with links := dictInsert s.links asset_id transaction_id }

end InMemoryAssetStorage

/-! ## FileSystemAssetStorage.retrieve (src/storage.py)

The file system is external state: a map from paths to what opening and
`json.load`-ing the file would yield — missing, unreadable (open raises
PermissionError), syntactically invalid JSON (json.load raises
JSONDecodeError), or a parsed JSON document. -/

/-- Outcome of opening and parsing one path. -/
inductive FileState where
  | absent
  | unreadable
  | invalid
  | parsed (j : JsonValue)

/-- The file system, as a path-indexed association list; unlisted paths are
absent. -/
def FS : Type := List (String × FileState)

/-- What the path holds. -/
def fsLookup (fs : FS) (path : String) : FileState :=
  (dictGet (κ := String) fs path).getD .absent

/-- `self._get_asset_path(asset_id)`. -/
def assetPath (storage_dir : String) (asset_id : AssetId) : String :=
  storage_dir ++ "/" ++ asset_id.value ++ ".json"

/-- Python subscript `j[k]` on a parsed JSON value: KeyError when the key is
missing from an object, TypeError when the value is not an object. -/
def getItem (j : JsonValue) (k : String) : Except PyErr JsonValue :=
  match j with
  | .obj ms =>
    match ms.lookup k with
    | some v => .ok v
    | none => .error .keyError
  | _ => .error .typeError

/-- `AssetId.from_string` applied to a JSON leaf: pydantic raises
ValidationError for a non-string or a non-conforming string. -/
def jsonToAssetId (v : JsonValue) : Except PyErr AssetId :=
  match v with
  | .str s =>
    match AssetId.from_string s with
    | some a => .ok a
    | none => .error .validationError
  | _ => .error .validationError

/-- pydantic validation of a plain `str` field: a non-string raises
ValidationError. -/
def requireStr (v : JsonValue) : Except PyErr String :=
  match v with
  | .str s => .ok s
  | _ => .error .validationError

/-- pydantic validation of a `float` field (GPSCoordinates): a JSON number
is accepted with its rendering, anything else raises ValidationError.
(pydantic lax-mode coercion of numeric *strings* to float is not modelled;
no theorem in this file depends on that branch.) -/
def jsonNumRepr (v : JsonValue) : Except PyErr String :=
  match v with
  | .num r => .ok r
  | _ => .error .validationError

/-- Decimal digit test. -/
def isDigitChar (c : Char) : Bool := 48 ≤ c.toNat && c.toNat ≤ 57

/-- Numeric value of two digit characters. -/
def twoDig (a b : Char) : Nat := (a.toNat - 48) * 10 + (b.toNat - 48)

/-- The time tail accepted after the date: HH, HH:MM, HH:MM:SS, optionally
with a 1-6 digit fraction. -/
def isIsoTime : List Char → Bool
  | [h1, h2] => isDigitChar h1 && isDigitChar h2 && twoDig h1 h2 ≤ 23
  | [h1, h2, ':', m1, m2] =>
    isIsoTime [h1, h2] && isDigitChar m1 && isDigitChar m2 && twoDig m1 m2 ≤ 59
  | [h1, h2, ':', m1, m2, ':', s1, s2] =>
    isIsoTime [h1, h2, ':', m1, m2] && isDigitChar s1 && isDigitChar s2 && twoDig s1 s2 ≤ 59
  | h1 :: h2 :: ':' :: m1 :: m2 :: ':' :: s1 :: s2 :: '.' :: frac =>
    isIsoTime [h1, h2, ':', m1, m2, ':', s1, s2] && frac.all isDigitChar &&
      decide (1 ≤ frac.length) && decide (frac.length ≤ 6)
  | _ => false

/-- Modelled approximation of CPython `datetime.fromisoformat`: a
YYYY-MM-DD date, optionally followed by a one-character separator and a
time. The full accepted grammar is broader (time zones, compact forms);
no theorem in this file depends on which strings are accepted. -/
def isIsoDateTime (s : String) : Bool :=
  match s.data with
  | y1 :: y2 :: y3 :: y4 :: '-' :: m1 :: m2 :: '-' :: d1 :: d2 :: rest =>
    ([y1, y2, y3, y4, m1, m2, d1, d2].all isDigitChar) &&
    (1 ≤ twoDig m1 m2 && twoDig m1 m2 ≤ 12) &&
    (1 ≤ twoDig d1 d2 && twoDig d1 d2 ≤ 31) &&
    (match rest with
     | [] => true
     | _sep :: t => isIsoTime t)
  | _ => false

/-- `datetime.fromisoformat` applied to a JSON leaf: TypeError for a
non-string, ValueError for a malformed string. -/
def fromisoformatJson (v : JsonValue) : Except PyErr String :=
  match v with
  | .str s => if isIsoDateTime s then .ok s else .error .valueError
  | _ => .error .typeError

/-- The `Asset(asset_id=AssetId.from_string(d[...]), ...)` expression of
FileSystemAssetStorage.retrieve: keyword arguments evaluate left to right
(each subscript can raise KeyError or TypeError, `from_string`,
`GPSCoordinates` and `fromisoformat` validate in place), then pydantic
validates the remaining plain-string fields in field order. -/
def buildAsset (j : JsonValue) : Except PyErr Asset := do
  let idv ← getItem j "asset_id"
  let aid ← jsonToAssetId idv
  let descv ← getItem j "description"
  let contv ← getItem j "content"
  let locv ← getItem j "location"
  let latv ← getItem locv "latitude"
  let lonv ← getItem locv "longitude"
  let lat ← jsonNumRepr latv
  let lon ← jsonNumRepr lonv
  let tsv ← getItem j "timestamp"
  let ts ← fromisoformatJson tsv
  let crv ← getItem j "creator"
  let pbv ← getItem j "publisher"
  let desc ← requireStr descv
  let cont ← requireStr contv
  let cr ← requireStr crv
  let pb ← requireStr pbv
  return ⟨aid, desc, cont, ⟨lat, lon⟩, ts, cr, pb⟩

namespace FileSystemAssetStorage

/-- `FileSystemAssetStorage.retrieve`: open the per-id file and rebuild the
Asset; `except (FileNotFoundError, json.JSONDecodeError, KeyError)` turns
exactly those three into `None`, every other exception propagates. -/
def retrieve (fs : FS) (storage_dir : String) (asset_id : AssetId) :
    Except PyErr (Option Asset) :=
  match fsLookup fs (assetPath storage_dir asset_id) with
  | .absent => .ok none
  | .unreadable => .error .permissionError
  | .invalid => .ok none
  | .parsed j =>
    match buildAsset j with
    | .ok a => .ok (some a)
    | .error .keyError => .ok none
    | .error e => .error e

end FileSystemAssetStorage

/-! ## AlgorandStorage.record_asset and the hybrid coordinator
(src/storage.py)

The external ledger is an oracle: what the `create_asset` call
(src/asset_create.py — suggested_params, sign, send_transaction,
wait_for_confirmation) would do, as a function of the arguments the code
passes it. An exception from any of those SDK calls surfaces as `.error`. -/

/-- The outcome of `create_asset(algod_client, ..., asset_name, unit_name,
metadata_hash)` for given asset_name, unit_name and metadata hash bytes. -/
def CreateAssetOracle : Type := String → String → List Nat → Except PyErr String

namespace AlgorandStorage

/-- `AlgorandStorage.record_asset`: when the startup connection failed the
client is `None` and the method returns `None` at once; otherwise it builds
the bounded note payload, hashes its compact serialization, truncates the
description into the ledger name fields, and calls `create_asset` — with no
exception handling around the call. -/
def record_asset (client : Option Unit) (create : CreateAssetOracle)
    (asset_id : AssetId) (x : AssetUploadRequest) : Except PyErr (Option String) :=
  match client with
  | none => .ok none
  | some _ =>
    let note_data : JsonValue :=
      jobj [("type", .str "asset_registry"),
            ("asset_id", .str asset_id.value),
            ("description", .str (x.description.take 100)),
            ("creator", .str x.creator),
            ("publisher", .str x.publisher),
            ("timestamp", .str x.timestamp)]
    let metadata_hash := sha256Bytes (strBytes (dumpsCompact note_data))
    let asset_name := if x.description = "" then "Asset" else x.description.take 32
    let unit_name := if x.description = "" then "ASSET" else x.description.take 8
    (create asset_name unit_name metadata_hash).map some

end AlgorandStorage

namespace HybridAssetStorage

/-- `HybridAssetStorage.save_and_link` over the default in-memory local
store: save locally first, then record on the ledger, then link whatever
reference (possibly `None`) was obtained. If `record_asset` raises, the
local save has already mutated the store and persists while the exception
propagates (link_transaction is then never reached). -/
def save_and_link (s : InMemoryState) (client : Option Unit)
    (create : CreateAssetOracle) (x : AssetUploadRequest) (asset_id : AssetId) :
    InMemoryState × Except PyErr (Option String) :=
  let s1 := InMemoryAssetStorage.save s x asset_id
  match AlgorandStorage.record_asset client create asset_id x with
  | .ok txid => (InMemoryAssetStorage.link_transaction s1 asset_id txid, .ok txid)
  | .error e => (s1, .error e)

end HybridAssetStorage

/-- `save_asset` (src/utils.py): derive the identifier, run the hybrid
save-and-link, and return the pair (asset_id, transaction_id). -/
def save_asset (s : InMemoryState) (client : Option Unit)
    (create : CreateAssetOracle) (x : AssetUploadRequest) :
    InMemoryState × Except PyErr (AssetId × Option String) :=
  match generate_asset_id x with
  | none => (s, .error .validationError)
  | some asset_id =>
    let r := HybridAssetStorage.save_and_link s client create x asset_id
    match r.2 with
    | .ok t => (r.1, .ok (asset_id, t))
    | .error e => (r.1, .error e)


/-! ## Concrete inputs used by the test suite and by witnesses -/

/-- The request of tests/test_generate_asset_id.py (floats rendered as
their Python repr: `-74.0060` reads back as `-74.006`). -/
def testRequest : AssetUploadRequest :=
  { description := "Test asset"
    content := "This is test content"
    location := { latitude := "40.7128", longitude := "-74.006" }
    timestamp := "2024-01-01T12:00:00"
    creator := "creator123"
    publisher := "publisher456" }

/-- The pinned identifier of test_generate_asset_id_expected_value. -/
def testAssetId : AssetId :=
  ⟨"e872179dc951d84997944d378116e9d0906dcb127aa6a00c1d122dd180a003ad"⟩

/-- A ledger oracle for the scenario in which every `create_asset` call
fails (the SDK raises a connection error at call time). -/
def failOracle : CreateAssetOracle := fun _ _ _ => .error .connectionError

/-- A syntactically valid identifier used for counterexample scenarios. -/
def cexId : AssetId :=
  ⟨"aaaaaaaaaaaaaaaaaaaaaaaaaaaaaaaaaaaaaaaaaaaaaaaaaaaaaaaaaaaaaaaa"⟩

/-- A second valid identifier, distinct from `cexId`. -/
def cexId2 : AssetId :=
  ⟨"bbbbbbbbbbbbbbbbbbbbbbbbbbbbbbbbbbbbbbbbbbbbbbbbbbbbbbbbbbbbbbbb"⟩

/-- A small request for counterexample and witness scenarios. -/
def cexReq : AssetUploadRequest :=
  { description := "First test asset"
    content := "Content of first asset"
    location := { latitude := "40.7128", longitude := "-74.006" }
    timestamp := "2024-01-01T12:00:00"
    creator := "creator1"
    publisher := "publisher1" }

/-- A second small request. -/
def cexReq2 : AssetUploadRequest :=
  { description := "Second test asset"
    content := "Content of second asset"
    location := { latitude := "37.7749", longitude := "-122.4194" }
    timestamp := "2024-01-02T15:30:00"
    creator := "creator2"
    publisher := "publisher2" }

/-- A file system whose record for `cexId` exists but cannot be read
(opening it raises PermissionError). -/
def cexFS : FS := [(assetPath "data/assets" cexId, FileState.unreadable)]

/-- Two distinct-id entries, as in test_storage.py's two-asset scenario. -/
def witnessEntries : List (AssetId × AssetUploadRequest) :=
  [(cexId, cexReq), (cexId2, cexReq2)]

/-! ## Format lemmas for the derived identifier -/

/-- Every nibble value renders to a lowercase hex character. -/
theorem hexChar_hexLower (n : Nat) (h : n < 16) : isHexLowerChar (hexChar n) = true := by
  interval_cases n <;> decide

/-- A word renders to eight characters. -/
theorem wordToHex_length (w : Nat) : (wordToHex w).length = 8 := by
  simp [wordToHex]

/-- All characters of a rendered word are lowercase hex. -/
theorem wordToHex_all (w : Nat) : (wordToHex w).all isHexLowerChar = true := by
  simp only [wordToHex, List.all_eq_true, List.mem_map, List.mem_range]
  rintro c ⟨i, _, rfl⟩
  exact hexChar_hexLower _ (Nat.mod_lt _ (by norm_num))

/-- A SHA-256 hexdigest passes the `AssetId` validation predicate. -/
theorem sha256Hex_validValue (msg : List Nat) : AssetId.validValue (sha256Hex msg) = true := by
  simp only [AssetId.validValue, sha256Hex, Bool.and_eq_true, beq_iff_eq]
  constructor
  · show (String.mk _).length = 64
    simp [String.length, wordToHex_length]
  · show List.all _ _ = true
    simp only [List.all_append, Bool.and_eq_true]
    exact ⟨⟨⟨⟨⟨⟨⟨wordToHex_all _, wordToHex_all _⟩, wordToHex_all _⟩, wordToHex_all _⟩,
      wordToHex_all _⟩, wordToHex_all _⟩, wordToHex_all _⟩, wordToHex_all _⟩

/-- `generate_asset_id` always succeeds, with the hexdigest as the value. -/
theorem generate_asset_id_eq (a : AssetUploadRequest) :
    generate_asset_id a = some ⟨sha256Hex (strBytes (hashInputString a))⟩ := by
  simp [generate_asset_id, AssetId.from_string, sha256Hex_validValue]

/-- The value of a derived identifier passes the validation predicate. -/
theorem generate_asset_id_valid {a : AssetUploadRequest} {i : AssetId}
    (h : generate_asset_id a = some i) : AssetId.validValue i.value = true := by
  rw [generate_asset_id_eq] at h
  cases h
  exact sha256Hex_validValue _

/-! ## The sort_keys order -/

/-- The boolean lexicographic comparison agrees with the list order:
`charListLe as bs` holds exactly when `bs` is not strictly below `as`. -/
theorem charListLe_iff :
    ∀ as bs : List Char, charListLe as bs = true ↔ ¬List.Lex (· < ·) bs as
  | [], bs => iff_of_true rfl (List.Lex.not_nil_right _ _)
  | a :: as, [] =>
    iff_of_false (by simp [charListLe]) (by simp [List.Lex.nil])
  | a :: as, b :: bs => by
    by_cases hab : a < b
    · refine iff_of_true (by simp [charListLe, hab]) (fun h => ?_)
      cases h with
      | cons h => exact lt_irrefl a hab
      | rel h => exact lt_asymm hab h
    · by_cases hba : b < a
      · refine iff_of_false (by simp [charListLe, hab, hba]) (not_not_intro (List.Lex.rel hba))
      · have heq : a = b := le_antisymm (le_of_not_lt hba) (le_of_not_lt hab)
        subst heq
        have : charListLe (a :: as) (a :: bs) = charListLe as bs := by
          simp [charListLe, lt_irrefl]
        rw [this, charListLe_iff as bs]
        exact (not_congr List.Lex.cons_iff).symm

/-- The executable comparison coincides with Mathlib's string order. -/
theorem strLeB_iff (s t : String) : strLeB s t = true ↔ s ≤ t := by
  have h : (t < s) ↔ List.Lex (· < ·) t.data s.data := String.lt_iff_toList_lt
  constructor
  · intro hle hlt
    exact ((charListLe_iff s.data t.data).mp hle) (h.mp hlt)
  · intro hle
    exact (charListLe_iff s.data t.data).mpr (fun hlex => hle (h.mpr hlex))

/-- The key order is total. -/
theorem keyLe_total : ∀ p q : String × String, keyLe p q ∨ keyLe q p := by
  intro p q
  rcases le_total p.1 q.1 with h | h
  · exact Or.inl ((strLeB_iff _ _).mpr h)
  · exact Or.inr ((strLeB_iff _ _).mpr h)

/-- The key order is transitive. -/
theorem keyLe_trans : ∀ p q r : String × String, keyLe p q → keyLe q r → keyLe p r := by
  intro p q r hpq hqr
  exact (strLeB_iff _ _).mpr (le_trans ((strLeB_iff _ _).mp hpq) ((strLeB_iff _ _).mp hqr))

/-! ## Dict lemmas -/

/-- Looking up the key just inserted yields the inserted value. -/
theorem dictGet_dictInsert_self {κ ν : Type} [DecidableEq κ]
    (l : List (κ × ν)) (k : κ) (v : ν) : dictGet (dictInsert l k v) k = some v := by
  induction l with
  | nil => simp [dictInsert, dictGet]
  | cons p rest ih =>
    by_cases hk : p.1 = k
    · simp [dictInsert, dictGet, hk]
    · simp [dictInsert, dictGet, hk, ih]

/-- Looking up an absent key yields `none`. -/
theorem dictGet_eq_none {κ ν : Type} [DecidableEq κ]
    (l : List (κ × ν)) (k : κ) (h : k ∉ l.map Prod.fst) : dictGet l k = none := by
  induction l with
  | nil => rfl
  | cons p rest ih =>
    obtain ⟨k0, v0⟩ := p
    simp only [List.map_cons, List.mem_cons] at h
    push_neg at h
    have hne : ¬k0 = k := fun hk => h.1 hk.symm
    simp [dictGet, hne, ih h.2]

/-- Inserting a fresh key appends it at the end (Python dict semantics). -/
theorem dictInsert_of_not_mem {κ ν : Type} [DecidableEq κ]
    (l : List (κ × ν)) (k : κ) (v : ν) (h : k ∉ l.map Prod.fst) :
    dictInsert l k v = l ++ [(k, v)] := by
  induction l with
  | nil => rfl
  | cons p rest ih =>
    obtain ⟨k0, v0⟩ := p
    simp only [List.map_cons, List.mem_cons] at h
    push_neg at h
    have hne : ¬k0 = k := fun hk => h.1 hk.symm
    simp [dictInsert, hne, ih h.2]

/-- Splitting the validation predicate into its two conjuncts. -/
theorem validValue_iff (s : String) :
    AssetId.validValue s = true ↔ s.length = 64 ∧ s.data.all isHexLowerChar = true := by
  simp [AssetId.validValue]

/-- Claim C1: for every asset upload request, generate_asset_id is
deterministic (equal to itself as a pure function of the request) and
produces an identifier of exactly 64 lowercase hexadecimal characters. -/
theorem c1_generate_asset_id_deterministic_hex (a : AssetUploadRequest) :
    generate_asset_id a = generate_asset_id a ∧
    ∃ i : AssetId, generate_asset_id a = some i ∧
      i.value.length = 64 ∧ i.value.data.all isHexLowerChar = true := by
  refine ⟨rfl, ⟨sha256Hex (strBytes (hashInputString a))⟩, generate_asset_id_eq a, ?_⟩
  exact (validValue_iff _).mp (sha256Hex_validValue _)

/-- Claim C2: changing the description alone (all other fields fixed)
never changes the derived identifier. -/
theorem c2_description_does_not_affect_id (a : AssetUploadRequest) (d : String) :
    generate_asset_id { a with description := d } = generate_asset_id a := rfl

/-- Claim C5: after save(x, derive(x)) the in-memory store retrieves, under
the derived identifier, an asset carrying exactly x's fields plus that
identifier. -/
theorem c5_save_retrieve_roundtrip (s : InMemoryState) (x : AssetUploadRequest)
    (i : AssetId) (_h : generate_asset_id x = some i) :
    InMemoryAssetStorage.retrieve (InMemoryAssetStorage.save s x i) i =
      some { asset_id := i, description := x.description, content := x.content,
             location := x.location, timestamp := x.timestamp, creator := x.creator,
             publisher := x.publisher } := by
  simp [InMemoryAssetStorage.retrieve, InMemoryAssetStorage.save, assetOf,
    dictGet_dictInsert_self]

set_option maxRecDepth 10000 in
/-- Witness for C5 at the test-suite request and its pinned identifier. -/
theorem c5_save_retrieve_roundtrip_witness :
    generate_asset_id testRequest = some testAssetId ∧
    InMemoryAssetStorage.retrieve
      (InMemoryAssetStorage.save InMemoryAssetStorage.emptyState testRequest testAssetId)
      testAssetId = some (assetOf testAssetId testRequest) := by
  have h : generate_asset_id testRequest = some testAssetId := by decide
  exact ⟨h, c5_save_retrieve_roundtrip InMemoryAssetStorage.emptyState testRequest testAssetId h⟩

/-- Claim C7: AssetId.from_string succeeds exactly on strings passing the
64-lowercase-hex validation, and identifiers are equal iff their underlying
string values are equal. -/
theorem c7_from_string_validation_and_equality :
    (∀ s : String, (AssetId.from_string s).isSome = AssetId.validValue s) ∧
    (∀ a b : AssetId, a = b ↔ a.value = b.value) := by
  constructor
  · intro s
    by_cases h : AssetId.validValue s <;> simp [AssetId.from_string, h]
  · intro a b
    cases a
    cases b
    simp

/-- Claim C10: link_transaction only touches the links dict; retrieve and
list read the asset dict, so both are unchanged by any link_transaction. -/
theorem c10_link_transaction_frame (s : InMemoryState) (i : AssetId)
    (ref : Option String) (q : AssetId) :
    InMemoryAssetStorage.retrieve (InMemoryAssetStorage.link_transaction s i ref) q =
      InMemoryAssetStorage.retrieve s q ∧
    InMemoryAssetStorage.list (InMemoryAssetStorage.link_transaction s i ref) =
      InMemoryAssetStorage.list s :=
  ⟨rfl, rfl⟩

/-- Folding fresh-keyed saves over a store appends the corresponding
records in order. -/
theorem foldl_save_storage (entries : List (AssetId × AssetUploadRequest)) :
    ∀ s : InMemoryState,
    (∀ p ∈ entries, p.1 ∉ s.storage.map Prod.fst) →
    (entries.map Prod.fst).Nodup →
    (entries.foldl (fun t p => InMemoryAssetStorage.save t p.2 p.1) s).storage =
      s.storage ++ entries.map (fun p => (p.1, assetOf p.1 p.2)) := by
  induction entries with
  | nil => intro s _ _; simp
  | cons p rest ih =>
    intro s hdisj hnd
    obtain ⟨i, x⟩ := p
    simp only [List.map_cons, List.nodup_cons] at hnd
    have hfresh : i ∉ s.storage.map Prod.fst := hdisj (i, x) (List.mem_cons_self _ _)
    have hsave : (InMemoryAssetStorage.save s x i).storage = s.storage ++ [(i, assetOf i x)] := by
      simp [InMemoryAssetStorage.save, dictInsert_of_not_mem _ _ _ hfresh]
    have hdisj2 : ∀ q ∈ rest, q.1 ∉ (InMemoryAssetStorage.save s x i).storage.map Prod.fst := by
      intro q hq
      rw [hsave]
      simp only [List.map_append, List.mem_append, List.map_cons, List.map_nil,
        List.mem_singleton]
      push_neg
      refine ⟨hdisj q (List.mem_cons_of_mem _ hq), fun hqi => ?_⟩
      exact hnd.1 (hqi ▸ List.mem_map_of_mem Prod.fst hq)
    calc (List.foldl (fun t p => InMemoryAssetStorage.save t p.2 p.1) s ((i, x) :: rest)).storage
        = (List.foldl (fun t p => InMemoryAssetStorage.save t p.2 p.1)
            (InMemoryAssetStorage.save s x i) rest).storage := by rfl
      _ = (InMemoryAssetStorage.save s x i).storage ++
            rest.map (fun p => (p.1, assetOf p.1 p.2)) := ih _ hdisj2 hnd.2
      _ = s.storage ++ ((i, x) :: rest).map (fun p => (p.1, assetOf p.1 p.2)) := by
            rw [hsave]; simp

/-- Claim C9: saving N requests under N distinct identifiers into a fresh
in-memory store makes list() return exactly those N summaries, each pairing
a saved identifier with the description saved under it (here in insertion
order, which subsumes the claim's set comparison). -/
theorem c9_list_after_saves (entries : List (AssetId × AssetUploadRequest))
    (hnd : (entries.map Prod.fst).Nodup) :
    InMemoryAssetStorage.list
      (entries.foldl (fun t p => InMemoryAssetStorage.save t p.2 p.1)
        InMemoryAssetStorage.emptyState) =
      entries.map (fun p => { asset_id := p.1, description := p.2.description }) := by
  rw [InMemoryAssetStorage.list,
    foldl_save_storage entries InMemoryAssetStorage.emptyState
      (by intro p _; simp [InMemoryAssetStorage.emptyState]) hnd]
  simp [InMemoryAssetStorage.emptyState, assetOf, List.map_map, Function.comp]

/-- Witness for C9 at two distinct identifiers. -/
theorem c9_list_after_saves_witness :
    ((witnessEntries.map Prod.fst).Nodup) ∧
    InMemoryAssetStorage.list
      (witnessEntries.foldl (fun t p => InMemoryAssetStorage.save t p.2 p.1)
        InMemoryAssetStorage.emptyState) =
      witnessEntries.map (fun p => { asset_id := p.1, description := p.2.description }) := by
  have hnd : (witnessEntries.map Prod.fst).Nodup := by decide
  exact ⟨hnd, c9_list_after_saves witnessEntries hnd⟩

/-- Unfolding save_asset once the derived identifier is known. -/
theorem save_asset_eq {x : AssetUploadRequest} {i : AssetId}
    (h : generate_asset_id x = some i) (s : InMemoryState) (client : Option Unit)
    (create : CreateAssetOracle) :
    save_asset s client create x =
      (match (HybridAssetStorage.save_and_link s client create x i).2 with
       | .ok t => ((HybridAssetStorage.save_and_link s client create x i).1, .ok (i, t))
       | .error e => ((HybridAssetStorage.save_and_link s client create x i).1, .error e)) := by
  unfold save_asset
  rw [h]

/-- With no ledger client, save_and_link saves locally, links an absent
reference, and returns it. -/
theorem save_and_link_no_client (s : InMemoryState) (x : AssetUploadRequest)
    (i : AssetId) (create : CreateAssetOracle) :
    HybridAssetStorage.save_and_link s none create x i =
      (InMemoryAssetStorage.link_transaction (InMemoryAssetStorage.save s x i) i none,
        Except.ok none) := rfl

/-- Claim C3: when the ledger notary reports absence (client unavailable,
record_asset returns None), save_asset still returns the derived identifier
(with no transaction reference), the local save happens and the asset is
retrievable; moreover, for every ledger outcome whatsoever — success,
absence, or a raised exception — the asset saved by save_and_link stays
retrievable, i.e. the ledger step never rolls back the local save. -/
theorem c3_ledger_absent_still_saves (s : InMemoryState) (x : AssetUploadRequest)
    (i : AssetId) (create : CreateAssetOracle)
    (h : generate_asset_id x = some i) :
    (save_asset s none create x).2 = .ok (i, none) ∧
    InMemoryAssetStorage.retrieve (save_asset s none create x).1 i = some (assetOf i x) ∧
    AssetId.validValue i.value = true ∧
    (∀ (client : Option Unit) (create2 : CreateAssetOracle),
      InMemoryAssetStorage.retrieve
        (HybridAssetStorage.save_and_link s client create2 x i).1 i = some (assetOf i x)) := by
  refine ⟨?_, ?_, generate_asset_id_valid h, ?_⟩
  · rw [save_asset_eq h, save_and_link_no_client]
  · rw [save_asset_eq h, save_and_link_no_client]
    simp [InMemoryAssetStorage.retrieve, InMemoryAssetStorage.link_transaction,
      InMemoryAssetStorage.save, dictGet_dictInsert_self]
  · intro client create2
    show InMemoryAssetStorage.retrieve
        (match AlgorandStorage.record_asset client create2 i x with
         | .ok txid =>
           (InMemoryAssetStorage.link_transaction (InMemoryAssetStorage.save s x i) i txid,
             Except.ok txid)
         | .error e => (InMemoryAssetStorage.save s x i, Except.error e)).1 i =
      some (assetOf i x)
    cases AlgorandStorage.record_asset client create2 i x with
    | ok t =>
      simp [InMemoryAssetStorage.retrieve, InMemoryAssetStorage.link_transaction,
        InMemoryAssetStorage.save, dictGet_dictInsert_self]
    | error e =>
      simp [InMemoryAssetStorage.retrieve, InMemoryAssetStorage.save,
        dictGet_dictInsert_self]

set_option maxRecDepth 100000 in
/-- Witness for C3 at the test request with the ledger client unavailable. -/
theorem c3_ledger_absent_still_saves_witness :
    generate_asset_id testRequest = some testAssetId ∧
    (save_asset InMemoryAssetStorage.emptyState none failOracle testRequest).2 =
      .ok (testAssetId, none) ∧
    InMemoryAssetStorage.retrieve
      (save_asset InMemoryAssetStorage.emptyState none failOracle testRequest).1 testAssetId =
      some (assetOf testAssetId testRequest) := by
  have h : generate_asset_id testRequest = some testAssetId := by decide
  have hc := c3_ledger_absent_still_saves InMemoryAssetStorage.emptyState testRequest
    testAssetId failOracle h
  exact ⟨h, hc.1, hc.2.1⟩

/-- Claim C4 counterexample: with a live client whose `create_asset` call
fails at call time, record_asset propagates the exception instead of
returning absent — `except`-free code cannot swallow call-time failures. -/
theorem c4_record_asset_counterexample :
    AlgorandStorage.record_asset (some ()) failOracle cexId cexReq = .error .connectionError ∧
    AlgorandStorage.record_asset (some ()) failOracle cexId cexReq ≠ .ok none :=
  ⟨rfl, fun h => Except.noConfusion h⟩

/-- Claim C4 (amended): record_asset returns absent only when the ledger
client could not be reached at startup (client is None); with a live
client, a call-time failure or rejection inside create_asset propagates to
the caller, and a successful write returns the transaction reference. -/
theorem c4_record_asset_amended :
    (∀ (create : CreateAssetOracle) (i : AssetId) (x : AssetUploadRequest),
      AlgorandStorage.record_asset none create i x = .ok none) ∧
    (∀ (i : AssetId) (x : AssetUploadRequest) (e : PyErr),
      AlgorandStorage.record_asset (some ()) (fun _ _ _ => .error e) i x = .error e) ∧
    (∀ (i : AssetId) (x : AssetUploadRequest) (t : String),
      AlgorandStorage.record_asset (some ()) (fun _ _ _ => .ok t) i x = .ok (some t)) :=
  ⟨fun _ _ _ => rfl, fun _ _ _ => rfl, fun _ _ _ => rfl⟩

/-- Claim C6 counterexample: an unreadable stored record makes the
file-backed retrieve raise (PermissionError is not among the caught
exceptions), not report absence. -/
theorem c6_retrieve_counterexample :
    FileSystemAssetStorage.retrieve cexFS "data/assets" cexId = .error .permissionError ∧
    FileSystemAssetStorage.retrieve cexFS "data/assets" cexId ≠ .ok none :=
  ⟨rfl, fun h => Except.noConfusion h⟩

/-- Binding a success just applies the continuation. -/
theorem exceptBind_ok {ε α β : Type} (a : α) (f : α → Except ε β) :
    (Bind.bind (Except.ok a) f : Except ε β) = f a := rfl

/-- Binding a failure short-circuits (a raised Python exception skips the
rest of the expression). -/
theorem exceptBind_error {ε α β : Type} (e : ε) (f : α → Except ε β) :
    (Bind.bind (Except.error e) f : Except ε β) = .error e := rfl

/-- Claim C6 (amended): retrieve on the in-memory store returns None for
any identifier not present. For the file-backed strategy, point retrieval
yields absence when the file is missing, when its JSON is syntactically
invalid, when the parsed record lacks the asset_id key, and when the
record's asset_id is a valid identifier string but the description key is
missing; it raises instead of yielding absence when the file is unreadable
(PermissionError is not among the caught exceptions) and when the record's
asset_id value is a non-conforming string (the ValidationError raised
while evaluating the field arguments propagates, so a missing key behind
it is never reached). -/
theorem c6_retrieve_absence_amended :
    (∀ (s : InMemoryState) (i : AssetId), i ∉ s.storage.map Prod.fst →
      InMemoryAssetStorage.retrieve s i = none) ∧
    (∀ (fs : FS) (dir : String) (i : AssetId),
      fsLookup fs (assetPath dir i) = .absent →
      FileSystemAssetStorage.retrieve fs dir i = .ok none) ∧
    (∀ (fs : FS) (dir : String) (i : AssetId),
      fsLookup fs (assetPath dir i) = .invalid →
      FileSystemAssetStorage.retrieve fs dir i = .ok none) ∧
    (∀ (fs : FS) (dir : String) (i : AssetId) (ms : JsonMembers),
      fsLookup fs (assetPath dir i) = .parsed (.obj ms) →
      ms.lookup "asset_id" = none →
      FileSystemAssetStorage.retrieve fs dir i = .ok none) ∧
    (∀ (fs : FS) (dir : String) (i : AssetId) (ms : JsonMembers) (v : String),
      fsLookup fs (assetPath dir i) = .parsed (.obj ms) →
      ms.lookup "asset_id" = some (.str v) →
      AssetId.validValue v = true →
      ms.lookup "description" = none →
      FileSystemAssetStorage.retrieve fs dir i = .ok none) ∧
    (∀ (fs : FS) (dir : String) (i : AssetId) (ms : JsonMembers) (v : String),
      fsLookup fs (assetPath dir i) = .parsed (.obj ms) →
      ms.lookup "asset_id" = some (.str v) →
      AssetId.validValue v = false →
      FileSystemAssetStorage.retrieve fs dir i = .error .validationError) ∧
    (∀ (fs : FS) (dir : String) (i : AssetId),
      fsLookup fs (assetPath dir i) = .unreadable →
      FileSystemAssetStorage.retrieve fs dir i = .error .permissionError) := by
  refine ⟨?_, ?_, ?_, ?_, ?_, ?_, ?_⟩
  · intro s i h
    exact dictGet_eq_none _ _ h
  · intro fs dir i h
    simp [FileSystemAssetStorage.retrieve, h]
  · intro fs dir i h
    simp [FileSystemAssetStorage.retrieve, h]
  · intro fs dir i ms h hlk
    have hb : buildAsset (JsonValue.obj ms) = .error .keyError := by
      simp only [buildAsset, getItem]
      rw [hlk]
      exact rfl
    simp [FileSystemAssetStorage.retrieve, h, hb]
  · intro fs dir i ms v h hid hval hdesc
    have hb : buildAsset (JsonValue.obj ms) = .error .keyError := by
      simp only [buildAsset, getItem, hid, exceptBind_ok, jsonToAssetId,
        AssetId.from_string, hval, if_true, hdesc]
      exact rfl
    simp [FileSystemAssetStorage.retrieve, h, hb]
  · intro fs dir i ms v h hid hval
    have hb : buildAsset (JsonValue.obj ms) = .error .validationError := by
      simp only [buildAsset, getItem, hid, exceptBind_ok, jsonToAssetId,
        AssetId.from_string, hval, Bool.false_eq_true, if_false, exceptBind_error]
    simp [FileSystemAssetStorage.retrieve, h, hb]
  · intro fs dir i h
    simp [FileSystemAssetStorage.retrieve, h]

set_option maxRecDepth 10000 in
/-- Witness for C6 (amended) at concrete file-system states. -/
theorem c6_retrieve_absence_amended_witness :
    InMemoryAssetStorage.retrieve InMemoryAssetStorage.emptyState cexId = none ∧
    FileSystemAssetStorage.retrieve [] "data/assets" cexId = .ok none ∧
    FileSystemAssetStorage.retrieve [(assetPath "data/assets" cexId, FileState.invalid)]
      "data/assets" cexId = .ok none ∧
    FileSystemAssetStorage.retrieve
      [(assetPath "data/assets" cexId, FileState.parsed (.obj .nil))]
      "data/assets" cexId = .ok none ∧
    FileSystemAssetStorage.retrieve
      [(assetPath "data/assets" cexId,
        FileState.parsed (.obj (.cons "asset_id" (.str cexId.value) .nil)))]
      "data/assets" cexId = .ok none ∧
    FileSystemAssetStorage.retrieve
      [(assetPath "data/assets" cexId,
        FileState.parsed (.obj (.cons "asset_id" (.str "xyz") .nil)))]
      "data/assets" cexId = .error .validationError ∧
    FileSystemAssetStorage.retrieve cexFS "data/assets" cexId = .error .permissionError := by
  refine ⟨c6_retrieve_absence_amended.1 _ _ (by simp [InMemoryAssetStorage.emptyState]),
    c6_retrieve_absence_amended.2.1 _ _ _ rfl,
    c6_retrieve_absence_amended.2.2.1 _ _ _ rfl,
    c6_retrieve_absence_amended.2.2.2.1 _ _ _ .nil rfl rfl,
    c6_retrieve_absence_amended.2.2.2.2.1 _ _ _
      (.cons "asset_id" (.str cexId.value) .nil) cexId.value rfl rfl (by decide) rfl,
    c6_retrieve_absence_amended.2.2.2.2.2.1 _ _ _
      (.cons "asset_id" (.str "xyz") .nil) "xyz" rfl rfl (by decide),
    c6_retrieve_absence_amended.2.2.2.2.2.2 _ _ _ rfl⟩

set_option maxRecDepth 100000 in
/-- Claim C8: the canonical serialization hashed by generate_asset_id is
the sorted-keys rendering (pinned below character for character), the
derived identifier for the documented concrete input is exactly the pinned
64-hex value, and the serializer emits object keys in lexicographically
sorted order for every object. -/
theorem c8_pinned_serialization_and_hash :
    hashInputString testRequest =
      "\x7b\"content\": \"This is test content\", \"creator\": \"creator123\", \"location\": \x7b\"latitude\": 40.7128, \"longitude\": -74.006\x7d, \"publisher\": \"publisher456\", \"timestamp\": \"2024-01-01T12:00:00\"\x7d" ∧
    generate_asset_id testRequest =
      some ⟨"e872179dc951d84997944d378116e9d0906dcb127aa6a00c1d122dd180a003ad"⟩ ∧
    (∀ l : List (String × String), List.Sorted (· ≤ ·) ((sortByKey l).map Prod.fst)) := by
  refine ⟨by decide, by decide, fun l => ?_⟩
  have hs : List.Sorted keyLe (sortByKey l) :=
    @List.sorted_insertionSort _ keyLe _ ⟨keyLe_total⟩ ⟨keyLe_trans⟩ l
  exact List.Pairwise.map Prod.fst (fun p q hpq => (strLeB_iff _ _).mp hpq) hs
